import Mathlib

/-!
Verification of the LLM-T2T evaluation pipeline.

The definitions below are a shallow embedding of the Python sources in
`evaluation/`:

* `cot_eval.py` — LLM-judge evaluation for LogicNLG (`evaluate_single`,
  `evaluate_all`);
* `cot_eval_lotnlg.py` — LLM-judge evaluation for LoTNLG
  (`evaluate_single_lotnlg`, `evaluate_all_lotnlg`);
* `cot_eval_fetaqa.py` — LLM-judge evaluation for FeTaQA
  (`evaluate_single_fetaqa`, `evaluate_all_fetaqa`);
* `evaluate_lotnlg.py` — lexical/NLI evaluation with text normalisation
  (`clean_prediction_text`, `evaluate_lotnlg`);
* `evaluate_logicnlg.py` — lexical/NLI evaluation without normalisation;
* `evaluate_fetaqa.py` — lexical evaluation for FeTaQA.

External capabilities (the chat-completion judge, the NLI classifier and the
ROUGE/BLEU scorers) are modelled as oracle functions returning `Option`
values; `none` models the Python call raising an exception.  Python strings
are modelled as `String`/`List Char`; `dict` iteration is modelled by
association lists in insertion order, with last-wins indexing.
-/

/-- Python `\s` for ASCII input: space, tab, newline, carriage return,
vertical tab, form feed.  Also the character class used by `str.split()`
and `str.strip()`. -/
def isWS (c : Char) : Bool :=
  c == ' ' || c == '\t' || c == '\n' || c == '\r' || c == '\x0b' || c == '\x0c'

/-- `startsList pat l` is true when `pat` is an initial segment of `l`
(character-list version of the Python `str.startswith`). -/
def startsList : List Char → List Char → Bool
  | [], _ => true
  | _ :: _, [] => false
  | p :: ps, c :: cs => p == c && startsList ps cs

/-- `hasSubList needle hay` is true when `needle` occurs contiguously inside
`hay`; this is the Python `needle in hay` test on strings. -/
def hasSubList (needle : List Char) : List Char → Bool
  | [] => startsList needle []
  | c :: cs => startsList needle (c :: cs) || hasSubList needle cs

/-- The Python substring test `needle in hay`. -/
def strIn (needle hay : String) : Bool :=
  hasSubList needle.data hay.data

theorem startsList_iff (pat l : List Char) :
    startsList pat l = true ↔ ∃ t, pat ++ t = l := by
  induction pat generalizing l with
  | nil => simp [startsList]
  | cons p ps ih =>
    cases l with
    | nil => simp [startsList]
    | cons c cs =>
      simp only [startsList, Bool.and_eq_true, beq_iff_eq, ih, List.cons_append,
        List.cons.injEq]
      constructor
      · rintro ⟨rfl, t, rfl⟩; exact ⟨t, rfl, rfl⟩
      · rintro ⟨t, rfl, rfl⟩; exact ⟨rfl, t, rfl⟩

theorem hasSubList_iff (needle l : List Char) :
    hasSubList needle l = true ↔ ∃ s t, s ++ needle ++ t = l := by
  induction l with
  | nil =>
    simp only [hasSubList, startsList_iff]
    constructor
    · rintro ⟨t, h⟩; exact ⟨[], t, by simpa using h⟩
    · rintro ⟨s, t, h⟩
      have h' : s = [] ∧ needle = [] ∧ t = [] := by simpa using h.symm
      obtain ⟨rfl, rfl, rfl⟩ := h'
      exact ⟨[], rfl⟩
  | cons c cs ih =>
    simp only [hasSubList, Bool.or_eq_true, startsList_iff, ih]
    constructor
    · rintro (⟨t, h⟩ | ⟨s, t, h⟩)
      · exact ⟨[], t, by simpa using h⟩
      · exact ⟨c :: s, t, by simp [h]⟩
    · rintro ⟨s, t, h⟩
      cases s with
      | nil => exact Or.inl ⟨t, by simpa using h⟩
      | cons a s' =>
        right
        refine ⟨s', t, ?_⟩
        have := h
        simp only [List.cons_append, List.cons.injEq] at this
        exact this.2

/-- Substring containment as an explicit decomposition. -/
theorem strIn_iff (needle hay : String) :
    strIn needle hay = true ↔ ∃ s t, s ++ needle.data ++ t = hay.data :=
  hasSubList_iff needle.data hay.data

/-- Verdict parsing of `evaluate_single` in `cot_eval.py` (lines 43-46):
`if "FAITHFUL" in answer and "NOT FAITHFUL" not in answer: return 1 else: return 0`. -/
def evaluate_single_score (answer : String) : Nat :=
  if strIn "FAITHFUL" answer && !(strIn "NOT FAITHFUL" answer) then 1 else 0

/-- Verdict parsing of `evaluate_single_lotnlg` in `cot_eval_lotnlg.py`
(lines 46-49). -/
def evaluate_single_lotnlg_score (answer : String) : Nat :=
  if strIn "FAITHFUL" answer && !(strIn "NOT FAITHFUL" answer) then 1 else 0

/-- Verdict parsing of `evaluate_single_fetaqa` in `cot_eval_fetaqa.py`
(lines 51-54): `if "CORRECT" in answer and "INCORRECT" not in answer`. -/
def evaluate_single_fetaqa_score (answer : String) : Nat :=
  if strIn "CORRECT" answer && !(strIn "INCORRECT" answer) then 1 else 0

/-- Claim C1: verdict parsing of the LLM-judge response.  For each of the
three judge variants the score is 1 exactly when the positive verdict token
occurs in the answer text and the negative verdict token does not occur, and
the score is 0 in every other case (both tokens present or neither present).
Token occurrence is literal substring containment, as in the Python `in` test. -/
theorem claim_C1_verdict_parsing (answer : String) :
    (evaluate_single_score answer = 1 ↔
      ((∃ s t, s ++ "FAITHFUL".data ++ t = answer.data) ∧
        ¬ ∃ s t, s ++ "NOT FAITHFUL".data ++ t = answer.data)) ∧
    (evaluate_single_score answer = 0 ↔
      ¬ ((∃ s t, s ++ "FAITHFUL".data ++ t = answer.data) ∧
        ¬ ∃ s t, s ++ "NOT FAITHFUL".data ++ t = answer.data)) ∧
    (evaluate_single_lotnlg_score answer = 1 ↔
      ((∃ s t, s ++ "FAITHFUL".data ++ t = answer.data) ∧
        ¬ ∃ s t, s ++ "NOT FAITHFUL".data ++ t = answer.data)) ∧
    (evaluate_single_lotnlg_score answer = 0 ↔
      ¬ ((∃ s t, s ++ "FAITHFUL".data ++ t = answer.data) ∧
        ¬ ∃ s t, s ++ "NOT FAITHFUL".data ++ t = answer.data)) ∧
    (evaluate_single_fetaqa_score answer = 1 ↔
      ((∃ s t, s ++ "CORRECT".data ++ t = answer.data) ∧
        ¬ ∃ s t, s ++ "INCORRECT".data ++ t = answer.data)) ∧
    (evaluate_single_fetaqa_score answer = 0 ↔
      ¬ ((∃ s t, s ++ "CORRECT".data ++ t = answer.data) ∧
        ¬ ∃ s t, s ++ "INCORRECT".data ++ t = answer.data)) := by
  rw [← strIn_iff, ← strIn_iff, ← strIn_iff, ← strIn_iff]
  unfold evaluate_single_score evaluate_single_lotnlg_score evaluate_single_fetaqa_score
  cases hf : strIn "FAITHFUL" answer <;>
    cases hn : strIn "NOT FAITHFUL" answer <;>
      cases hc : strIn "CORRECT" answer <;>
        cases hi : strIn "INCORRECT" answer <;>
          simp

/-- Python `str.lower()` (ASCII behaviour). -/
def pyLower (s : String) : String :=
  String.mk (s.data.map Char.toLower)

/-- Python `str.strip()`: remove leading and trailing whitespace. -/
def pyStrip (s : String) : String :=
  String.mk (((s.data.dropWhile isWS).reverse.dropWhile isWS).reverse)

/-- Python slicing `s[:n]`. -/
def pyTake (s : String) (n : Nat) : String :=
  String.mk (s.data.take n)

/-- Helper for Python `str.split()`: accumulate the current word (reversed)
while scanning. -/
def pySplitAux : List Char → List Char → List (List Char)
  | [], acc => if acc.isEmpty then [] else [acc.reverse]
  | c :: cs, acc =>
    if isWS c then
      if acc.isEmpty then pySplitAux cs [] else acc.reverse :: pySplitAux cs []
    else pySplitAux cs (c :: acc)

/-- Python `str.split()` with no argument on a character list: split on runs
of whitespace, discarding empty pieces. -/
def pySplitList (l : List Char) : List (List Char) :=
  pySplitAux l []

/-- Python `str.split()` on a `String`. -/
def pySplit (s : String) : List String :=
  (pySplitList s.data).map String.mk

/-- Python `" ".join(words)` on character lists. -/
def joinSp : List (List Char) → List Char
  | [] => []
  | [w] => w
  | w :: ws => w ++ ' ' :: joinSp ws

/-- The final step of `clean_prediction_text`:
`" ".join(pred_text.split())` — collapse whitespace runs and trim. -/
def collapseWS (l : List Char) : List Char :=
  joinSp (pySplitList l)

/-- One attempted match of `##\s+` at the head of the list: two hashes
followed by at least one whitespace character; the greedy `\s+` consumes the
maximal whitespace run.  Returns the remainder after the match. -/
def tryHeader : List Char → Option (List Char)
  | c1 :: c2 :: d :: ds =>
    if c1 == '#' && c2 == '#' && isWS d then some (List.dropWhile isWS ds)
    else none
  | _ => none

/-- Fueled scan for `re.sub(r"##\s+", "", text)`: at each position either the
pattern matches (the match is deleted and scanning resumes after it) or the
character is kept and scanning advances by one. -/
def step1Go : Nat → List Char → List Char
  | 0, l => l
  | _ + 1, [] => []
  | fuel + 1, c :: cs =>
    match tryHeader (c :: cs) with
    | some rest => step1Go fuel rest
    | none => c :: step1Go fuel cs

/-- `re.sub(r"##\s+", "", text)` — step 1 of `clean_prediction_text`. -/
def step1 (l : List Char) : List Char :=
  step1Go l.length l

/-- One attempted match of `\*\*([^\*]+)\*\*` at the head of the list: two
stars, the greedy maximal star-free run (which must be non-empty), then two
more stars.  Returns the captured group and the remainder after the match. -/
def tryBold : List Char → Option (List Char × List Char)
  | c1 :: c2 :: rest =>
    if c1 == '*' && c2 == '*' then
      let w := rest.takeWhile (fun c => c != '*')
      let r := rest.dropWhile (fun c => c != '*')
      if w.isEmpty then none
      else
        match r with
        | r1 :: r2 :: r3 =>
          if r1 == '*' && r2 == '*' then some (w, r3) else none
        | _ => none
    else none
  | _ => none

/-- Fueled scan for `re.sub(r"\*\*([^\*]+)\*\*", r"\1", text)`: each
leftmost match is replaced by its captured group, then scanning resumes
after the match. -/
def step4Go : Nat → List Char → List Char
  | 0, l => l
  | _ + 1, [] => []
  | fuel + 1, c :: cs =>
    match tryBold (c :: cs) with
    | some (w, rest) => w ++ step4Go fuel rest
    | none => c :: step4Go fuel cs

/-- `re.sub(r"\*\*([^\*]+)\*\*", r"\1", text)` — step 4 of
`clean_prediction_text`. -/
def step4 (l : List Char) : List Char :=
  step4Go l.length l

/-- `splitAfter t l` drops everything up to and including the first
occurrence of `t` in `l`; `none` when `t` does not occur. -/
def splitAfter (target : Char) : List Char → Option (List Char)
  | [] => none
  | c :: cs => if c == target then some cs else splitAfter target cs

/-- One attempted match of `Reasoning[^:]*:[^\.]+\.` at the head of the
list: the literal `Reasoning`, anything up to the first colon, the colon,
then at least one non-period character up to and including the first
period.  Returns the remainder after the match. -/
def tryReasoning (l : List Char) : Option (List Char) :=
  if startsList ("Reasoning".data) l then
    match splitAfter ':' (l.drop 9) with
    | none => none
    | some rest2 =>
      match rest2 with
      | [] => none
      | c :: cs => if c == '.' then none else splitAfter '.' (c :: cs)
  else none

/-- Fueled scan for `re.sub(r"Reasoning[^:]*:[^\.]+\.", "", text)`. -/
def step3Go : Nat → List Char → List Char
  | 0, l => l
  | _ + 1, [] => []
  | fuel + 1, c :: cs =>
    match tryReasoning (c :: cs) with
    | some rest => step3Go fuel rest
    | none => c :: step3Go fuel cs

/-- `re.sub(r"Reasoning[^:]*:[^\.]+\.", "", text)` — step 3 of
`clean_prediction_text`. -/
def step3 (l : List Char) : List Char :=
  step3Go l.length l

/-- `takeToDot l` splits `l` into the (possibly empty) run of non-period
characters and the remainder after the first period; `none` when `l`
contains no period. -/
def takeToDot : List Char → Option (List Char × List Char)
  | [] => none
  | c :: cs =>
    if c == '.' then some ([], cs)
    else
      match takeToDot cs with
      | some (b, r) => some (c :: b, r)
      | none => none

/-- One attempted match of `Claim \d+[^:]*:\s*([^\.]+\.)` at the head of the
list: literal `Claim `, at least one digit, anything up to the first colon,
the colon, greedy whitespace, then the captured group — at least one
non-period character followed by the first period.  When the character
right after the whitespace run is itself a period the greedy `\s*` backs
off by one so the capture becomes that whitespace character plus the
period.  Returns the capture and the remainder after the match. -/
def tryClaim (l : List Char) : Option (List Char × List Char) :=
  if startsList ("Claim ".data) l then
    match (l.drop 6).span Char.isDigit with
    | (ds, l3) =>
      if ds.isEmpty then none
      else
        match splitAfter ':' l3 with
        | none => none
        | some rest4 =>
          match rest4.span isWS with
          | (wsp, rest5) =>
            match takeToDot rest5 with
            | none => none
            | some (body, r) =>
              if body.isEmpty then
                match wsp.getLast? with
                | none => none
                | some wch => some ([wch, '.'], r)
              else some (body ++ ['.'], r)
  else none

/-- Fueled scan for `re.findall(r"Claim \d+[^:]*:\s*([^\.]+\.)", text)`:
collect the captures of all non-overlapping matches, scanning left to
right. -/
def findClaimsGo : Nat → List Char → List (List Char)
  | 0, _ => []
  | _ + 1, [] => []
  | fuel + 1, c :: cs =>
    match tryClaim (c :: cs) with
    | some (cap, rest) => cap :: findClaimsGo fuel rest
    | none => findClaimsGo fuel cs

/-- `re.findall(r"Claim \d+[^:]*:\s*([^\.]+\.)", text)` — the claim
extraction of step 2 of `clean_prediction_text`. -/
def findClaims (l : List Char) : List (List Char) :=
  findClaimsGo l.length l

/-- `clean_prediction_text` from `evaluate_lotnlg.py` (lines 10-34):
1. remove markdown headers `##\s+`;
2. if `Claim N: …` segments are found, keep only their bodies joined by
   single spaces;
3. remove `Reasoning…:…. ` spans;
4. strip markdown bold `**text**` keeping the enclosed text;
5. collapse whitespace runs to single spaces and trim. -/
def clean_prediction_text (pred_text : String) : String :=
  let t1 := step1 pred_text.data
  let claims := findClaims t1
  let t2 := if claims.isEmpty then t1 else joinSp claims
  let t3 := step3 t2
  let t4 := step4 t3
  String.mk (collapseWS t4)

/-- Claim C5 counterexample: `clean_prediction_text` is not idempotent.  On
the input `"****a****"` the bold-stripping pass rewrites the inner
`**a**` to `a`, leaving `**a**`; a second application strips the asterisks
that remained, producing `a`. -/
theorem claim_C5_counterexample :
    clean_prediction_text "****a****" = "**a**" ∧
    clean_prediction_text (clean_prediction_text "****a****") = "a" ∧
    (("a" : String) == "**a**") = false := by
  refine ⟨by decide, ?_, by decide⟩
  decide

/-- Claim C6 counterexample: an input containing the markdown header marker
`##` not followed by whitespace is returned unchanged, so the output still
contains the header marker. -/
theorem claim_C6_counterexample :
    strIn "##" "##Header" = true ∧
    clean_prediction_text "##Header" = "##Header" ∧
    strIn "##" (clean_prediction_text "##Header") = true := by
  refine ⟨by decide, by decide, by decide⟩

/-- A Python value that is either a single string or a list of strings
(predictions, `sentences`, `logical_labels`). -/
inductive PyText where
  | str : String → PyText
  | list : List String → PyText
deriving DecidableEq

/-- The effective text of a prediction value:
`" ".join(pred_data) if isinstance(pred_data, list) else str(pred_data)`. -/
def pyToText : PyText → String
  | .str s => s
  | .list ss => String.intercalate " " ss

/-- `x[0] if isinstance(x, list) else str(x)`, with `none` modelling the
`IndexError` raised on an empty list. -/
def pyFirst : PyText → Option String
  | .str s => some s
  | .list [] => none
  | .list (x :: _) => some x

/-- A gold record.  Fields are optional because the JSON records of the
different datasets carry different keys; `none` models an absent key. -/
structure GoldItem where
  csv_id : Option String := none
  feta_id : Option String := none
  table_text : Option String := none
  question : Option String := none
  answer : Option String := none
  sentences : Option PyText := none
  logical_labels : Option PyText := none
deriving DecidableEq

/-- Python exceptions that the evaluation scripts can raise outside the
per-example `try` blocks. -/
inductive PyErr where
  | keyError
  | indexError
  | stopIteration
deriving DecidableEq

/-- The report part of a run result; `none` models the run raising. -/
def reportOf : Except PyErr α → Option α
  | .ok a => some a
  | .error _ => none

/-- True when the run completed without raising. -/
def runOkE : Except PyErr α → Bool
  | .ok _ => true
  | .error _ => false

/-- The exception of a failed run. -/
def errOf : Except PyErr α → Option PyErr
  | .ok _ => none
  | .error e => some e

/-- The join key stored by `csv_id = gold_item.get("csv_id"); if csv_id:`:
present only when the field exists and is truthy (non-empty). -/
def csvKey (g : GoldItem) : Option String :=
  match g.csv_id with
  | some c => if c = "" then none else some c
  | none => none

/-- The join key for FeTaQA records, from
`feta_id = gold_item.get("feta_id"); if feta_id:`. -/
def fetaKey (g : GoldItem) : Option String :=
  match g.feta_id with
  | some c => if c = "" then none else some c
  | none => none

/-- Lookup in the `csv_id_to_gold` dict built by iterating the gold records
in insertion order with last-wins overwriting. -/
def lookupGold (gold : List GoldItem) (k : String) : Option GoldItem :=
  gold.reverse.find? (fun g => csvKey g == some k)

/-- Lookup in the `feta_id_to_gold` dict of the FeTaQA scripts. -/
def lookupGoldFeta (gold : List GoldItem) (k : String) : Option GoldItem :=
  gold.reverse.find? (fun g => fetaKey g == some k)

/-- The keyword taxonomy of `evaluate_lotnlg.py` (lines 137-145), in
declaration order. -/
def lotTaxonomy : List (String × List String) :=
  [("aggregation", ["total", "sum", "average", "mean", "aggregate"]),
   ("superlative", ["most", "highest", "lowest", "best", "worst", "maximum",
      "minimum", "largest", "smallest", "superlative"]),
   ("count", ["number of", "count", "how many", "there are", "count:"]),
   ("comparative", ["more than", "less than", "greater", "higher", "lower",
      "comparative:", "compared"]),
   ("ordinal", ["first", "second", "third", "last", "ordinal:"]),
   ("unique", ["different", "unique", "distinct", "unique:"]),
   ("negation", ["not", "no", "never", "did not", "negation:"])]

/-- The keyword taxonomy of `evaluate_logicnlg.py` (lines 105-113). -/
def logicTaxonomy : List (String × List String) :=
  [("aggregation", ["total", "sum", "average", "mean"]),
   ("superlative", ["most", "highest", "lowest", "best", "worst"]),
   ("count", ["number of", "count", "how many"]),
   ("comparative", ["more than", "less than", "greater", "higher", "lower"]),
   ("ordinal", ["first", "second", "third", "last"]),
   ("unique", ["different", "unique", "distinct"]),
   ("negation", ["not", "no", "never", "did not"])]

/-- First-match-wins keyword inference over a taxonomy: the first category
one of whose trigger substrings occurs in the lowered prediction text;
`"surface-level"` when none matches. -/
def keywordInfer : List (String × List String) → String → String
  | [], _ => "surface-level"
  | (name, kws) :: rest, lowtext =>
    if kws.any (fun kw => strIn kw lowtext) then name
    else keywordInfer rest lowtext

/-- One attempted match of `\(([^)]+)\):` at the head of the list: an
opening parenthesis, at least one non-`)` character (the capture), the
closing parenthesis and a colon. -/
def tryParenLabel : List Char → Option (List Char × List Char)
  | '(' :: rest =>
    let body := rest.takeWhile (fun c => c != ')')
    let r := rest.dropWhile (fun c => c != ')')
    if body.isEmpty then none
    else
      match r with
      | ')' :: ':' :: r2 => some (body, r2)
      | _ => none
  | _ => none

/-- Fueled scan for `re.search(r"\(([^)]+)\):", pred_text)`: the capture of
the leftmost match, if any. -/
def findExplicitGo : Nat → List Char → Option (List Char)
  | 0, _ => none
  | _ + 1, [] => none
  | fuel + 1, c :: cs =>
    match tryParenLabel (c :: cs) with
    | some (body, _) => some body
    | none => findExplicitGo fuel cs

/-- `re.search(r"\(([^)]+)\):", pred_text)` — the explicit-label search of
`evaluate_lotnlg.py` (line 148). -/
def findExplicitLabel (l : List Char) : Option (List Char) :=
  findExplicitGo l.length l

/-- The predicted type of `evaluate_lotnlg.py` (lines 148-156): an explicit
parenthesized label before a colon, lowered and stripped, overrides keyword
inference over `lotTaxonomy`. -/
def predTypeLot (pred_text : String) : String :=
  match findExplicitLabel pred_text.data with
  | some lbl => pyStrip (pyLower (String.mk lbl))
  | none => keywordInfer lotTaxonomy (pyLower pred_text)

/-- The predicted type of `evaluate_logicnlg.py` (lines 115-119): keyword
inference over `logicTaxonomy` only — the script has no explicit-label
branch. -/
def predTypeLogic (pred_text : String) : String :=
  keywordInfer logicTaxonomy (pyLower pred_text)

/-- The gold comparison of `evaluate_lotnlg.py` (line 158):
`pred_type.lower() in gold_type.lower() or gold_type.lower() in pred_type.lower()`. -/
def typeMatchLot (pred_type gold_type : String) : Bool :=
  strIn (pyLower pred_type) (pyLower gold_type) ||
    strIn (pyLower gold_type) (pyLower pred_type)

/-- The gold comparison of `evaluate_logicnlg.py` (line 121):
`pred_type.lower() in gold_type.lower()` only. -/
def typeMatchLogic (pred_type gold_type : String) : Bool :=
  strIn (pyLower pred_type) (pyLower gold_type)

/-- Claim C7 counterexample: in `evaluate_logicnlg.py` the gold comparison
is one-directional.  With predicted type `"aggregation"` and gold label
`"agg"` bidirectional case-insensitive containment holds (`"agg"` is a
substring of `"aggregation"`), and `evaluate_lotnlg.py` counts the match,
but `evaluate_logicnlg.py` does not. -/
theorem claim_C7_counterexample :
    typeMatchLogic "aggregation" "agg" = false ∧
    typeMatchLot "aggregation" "agg" = true ∧
    strIn (pyLower "agg") (pyLower "aggregation") = true := by
  refine ⟨by decide, by decide, by decide⟩

/-- Claim C7, amended: in `evaluate_lotnlg.py` the type match succeeds
exactly when either lowered string occurs as a substring of the other
(bidirectional containment); in `evaluate_logicnlg.py` it succeeds exactly
when the lowered predicted type occurs as a substring of the lowered gold
label (one-directional only). -/
theorem claim_C7_amended :
    (∀ pred_type gold_type : String,
      typeMatchLot pred_type gold_type = true ↔
        ((∃ s t, s ++ (pyLower pred_type).data ++ t = (pyLower gold_type).data) ∨
          (∃ s t, s ++ (pyLower gold_type).data ++ t = (pyLower pred_type).data))) ∧
    (∀ pred_type gold_type : String,
      typeMatchLogic pred_type gold_type = true ↔
        (∃ s t, s ++ (pyLower pred_type).data ++ t = (pyLower gold_type).data)) := by
  constructor
  · intro p g
    simp only [typeMatchLot, Bool.or_eq_true, strIn_iff]
  · intro p g
    simp only [typeMatchLogic, strIn_iff]

/-- Claim C8 counterexample: `evaluate_logicnlg.py` has no explicit-label
branch.  On `"(ordinal): the most wins"` the explicit parenthesized label is
`"ordinal"`, yet the LogicNLG script classifies by keywords only and returns
`"superlative"` (trigger `"most"`); the LoTNLG script returns `"ordinal"`. -/
theorem claim_C8_counterexample :
    findExplicitLabel ("(ordinal): the most wins").data = some ("ordinal").data ∧
    predTypeLogic "(ordinal): the most wins" = "superlative" ∧
    predTypeLot "(ordinal): the most wins" = "ordinal" ∧
    (("superlative" : String) == "ordinal") = false := by
  refine ⟨by decide, by decide, by decide, by decide⟩

theorem takeWhile_exact (p : Char → Bool) :
    ∀ (xs : List Char) (y : Char) (ys : List Char), xs.all p = true → p y = false →
      (xs ++ y :: ys).takeWhile p = xs := by
  intro xs y ys hxs hy
  induction xs with
  | nil => simp [List.takeWhile_cons, hy]
  | cons a as ih =>
    simp only [List.all_cons, Bool.and_eq_true] at hxs
    simp [List.takeWhile_cons, hxs.1, ih hxs.2]

theorem dropWhile_exact (p : Char → Bool) :
    ∀ (xs : List Char) (y : Char) (ys : List Char), xs.all p = true → p y = false →
      (xs ++ y :: ys).dropWhile p = y :: ys := by
  intro xs y ys hxs hy
  induction xs with
  | nil => simp [List.dropWhile_cons, hy]
  | cons a as ih =>
    simp only [List.all_cons, Bool.and_eq_true] at hxs
    simp [List.dropWhile_cons, hxs.1, ih hxs.2]

theorem span_exact (p : Char → Bool) (xs : List Char) (y : Char) (ys : List Char)
    (hxs : xs.all p = true) (hy : p y = false) :
    (xs ++ y :: ys).span p = (xs, y :: ys) := by
  rw [List.span_eq_take_drop, takeWhile_exact p xs y ys hxs hy,
    dropWhile_exact p xs y ys hxs hy]

theorem findExplicitGo_isSome :
    ∀ (fuel : Nat) (u body v : List Char),
      (u ++ '(' :: (body ++ ')' :: ':' :: v)).length ≤ fuel →
      body ≠ [] → body.all (fun c => c != ')') = true →
      (findExplicitGo fuel (u ++ '(' :: (body ++ ')' :: ':' :: v))).isSome = true := by
  intro fuel
  induction fuel with
  | zero =>
    intro u body v hlen _ _
    simp [List.length_append] at hlen
  | succ f ih =>
    intro u body v hlen hb hb2
    cases u with
    | nil =>
      cases body with
      | nil => exact absurd rfl hb
      | cons b bs =>
        have htake : List.takeWhile (fun c => c != ')') ((b :: bs) ++ ')' :: ':' :: v)
            = b :: bs :=
          takeWhile_exact _ (b :: bs) ')' (':' :: v) hb2 (by decide)
        have hdrop : List.dropWhile (fun c => c != ')') ((b :: bs) ++ ')' :: ':' :: v)
            = ')' :: ':' :: v :=
          dropWhile_exact _ (b :: bs) ')' (':' :: v) hb2 (by decide)
        have htry : tryParenLabel ('(' :: ((b :: bs) ++ ')' :: ':' :: v))
            = some (b :: bs, v) := by
          simp only [tryParenLabel, htake, hdrop]
          simp
        simp only [List.cons_append] at htry
        simp only [List.nil_append]
        simp [findExplicitGo, htry]
    | cons c u' =>
      simp only [List.cons_append]
      cases htry : tryParenLabel (c :: (u' ++ '(' :: (body ++ ')' :: ':' :: v))) with
      | some pr =>
        obtain ⟨b', r'⟩ := pr
        simp [findExplicitGo, htry]
      | none =>
        have hlen' : (u' ++ '(' :: (body ++ ')' :: ':' :: v)).length ≤ f := by
          simp only [List.cons_append, List.length_cons] at hlen
          omega
        have := ih u' body v hlen' hb hb2
        simp [findExplicitGo, htry, this]

/-- Claim C8, amended: in `evaluate_lotnlg.py` an explicit parenthesized
label immediately before a colon always overrides keyword inference — the
search finds a label on every text containing the pattern, and whenever the
search succeeds the predicted type is that label lowered and stripped, with
keyword inference over the trigger taxonomy running only when the search
fails.  In `evaluate_logicnlg.py` keyword inference always runs: the script
has no explicit-label branch. -/
theorem claim_C8_amended :
    (∀ (u body v : List Char), body ≠ [] → body.all (fun c => c != ')') = true →
      (findExplicitLabel (u ++ '(' :: (body ++ ')' :: ':' :: v))).isSome = true) ∧
    (∀ (pred_text : String) (lbl : List Char),
      findExplicitLabel pred_text.data = some lbl →
      predTypeLot pred_text = pyStrip (pyLower (String.mk lbl))) ∧
    (∀ pred_text : String,
      findExplicitLabel pred_text.data = none →
      predTypeLot pred_text = keywordInfer lotTaxonomy (pyLower pred_text)) ∧
    (∀ pred_text : String,
      predTypeLogic pred_text = keywordInfer logicTaxonomy (pyLower pred_text)) := by
  refine ⟨?_, ?_, ?_, ?_⟩
  · intro u body v hb hb2
    exact findExplicitGo_isSome _ u body v le_rfl hb hb2
  · intro pred_text lbl h
    simp [predTypeLot, h]
  · intro pred_text h
    simp [predTypeLot, h]
  · intro pred_text
    rfl

/-- Witness for the amended claim C8, at concrete inputs. -/
theorem claim_C8_amended_witness :
    (findExplicitLabel ("see ".data ++ '(' :: ("count".data ++ ')' :: ':' :: " x".data))).isSome
        = true ∧
    predTypeLot "(ordinal): stuff" = pyStrip (pyLower (String.mk ("ordinal").data)) :=
  ⟨claim_C8_amended.1 ("see ").data ("count").data (" x").data (by decide) (by decide),
   claim_C8_amended.2.1 "(ordinal): stuff" ("ordinal").data (by decide)⟩

/-- External scorers of `evaluate_lotnlg.py`/`evaluate_logicnlg.py`: the NLI
classification pipeline (returns a label), the ROUGE-L scorer (returns the
`rougeL` f-measure) and the BLEU scorer.  `none` models the call raising. -/
structure LotScorers where
  nli : String → Option String
  rouge : String → String → Option ℚ
  bleu : List String → List String → Option ℚ

/-- The running metric sums of the LogicNLG/LoTNLG evaluators. -/
structure LotSums where
  nli_acc : ℚ
  rouge_l : ℚ
  bleu : ℚ
  type_em : ℚ
deriving DecidableEq

/-- The summary report of the LogicNLG/LoTNLG evaluators. -/
structure LotReport where
  nli_acc : ℚ
  rouge_l : ℚ
  bleu : ℚ
  type_em : ℚ
  total : Nat
  not_found : Nat
  has_type_em : Bool
deriving DecidableEq

/-- `has_logical_labels` as computed from the first gold record
(`next(iter(gold_data.values()))`; `"logical_labels" in sample_item`). -/
def hasLLOf : List GoldItem → Bool
  | [] => false
  | g0 :: _ => g0.logical_labels.isSome

/-- The `try` block of the `evaluate_lotnlg.py` loop (lines 111-161) for one
matched example: NLI on truncated table and raw prediction, ROUGE-L and BLEU
on the cleaned prediction, then — when logical labels are in use — the
keyword-type match.  Returns the increments applied to the running sums
before the block finished or raised, and whether it ran to completion
(`total += 1` happens only at the end of the block, so the earlier increments
persist when a later call raises). -/
def lotTry (sc : LotScorers) (hasLL : Bool) (g : GoldItem)
    (table_str pred_text pred_text_clean gold_text : String) : LotSums × Bool :=
  match sc.nli (pyTake table_str 1000 ++ " [SEP] " ++ pyTake pred_text 500) with
  | none => (⟨0, 0, 0, 0⟩, false)
  | some lab =>
    let n : ℚ := if lab = "ENTAILMENT" then 1 else 0
    match sc.rouge gold_text pred_text_clean with
    | none => (⟨n, 0, 0, 0⟩, false)
    | some r =>
      match sc.bleu (pySplit gold_text) (pySplit pred_text_clean) with
      | none => (⟨n, r, 0, 0⟩, false)
      | some b =>
        if hasLL then
          match g.logical_labels with
          | none => (⟨n, r, b, 0⟩, false)
          | some ll =>
            match pyFirst ll with
            | none => (⟨n, r, b, 0⟩, false)
            | some gold_type =>
              let t : ℚ := if typeMatchLot (predTypeLot pred_text) gold_type then 1 else 0
              (⟨n, r, b, t⟩, true)
        else (⟨n, r, b, 0⟩, true)

/-- The evaluation loop of `evaluate_lotnlg.py` (lines 86-165).  Unmatched
predictions increment `not_found`; matched predictions read `table_text`,
`sentences` and the first sentence outside the `try` block (raising
uncaught `KeyError`/`IndexError` when absent), then run the `try` block. -/
def lotLoop (sc : LotScorers) (hasLL : Bool) (gold : List GoldItem) :
    List (String × PyText) → LotSums → Nat → Nat → Except PyErr (LotSums × Nat × Nat)
  | [], s, total, nf => .ok (s, total, nf)
  | (csv_id, pred_data) :: rest, s, total, nf =>
    match lookupGold gold csv_id with
    | none => lotLoop sc hasLL gold rest s total (nf + 1)
    | some g =>
      let pred_text := pyToText pred_data
      let pred_text_clean := clean_prediction_text pred_text
      match g.table_text with
      | none => .error .keyError
      | some table_str =>
        match g.sentences with
        | none => .error .keyError
        | some sents =>
          match pyFirst sents with
          | none => .error .indexError
          | some gold_text =>
            match lotTry sc hasLL g table_str pred_text pred_text_clean gold_text with
            | (d, ok) =>
              lotLoop sc hasLL gold rest
                ⟨s.nli_acc + d.nli_acc, s.rouge_l + d.rouge_l,
                  s.bleu + d.bleu, s.type_em + d.type_em⟩
                (if ok then total + 1 else total) nf

/-- The finalisation applied to each metric (lines 168-170 of
`evaluate_lotnlg.py`): `if total > 0: results[key] = results[key]/total*100`;
when `total == 0` the accumulated raw sum is reported unchanged. -/
def finalizeMetric (total : Nat) (x : ℚ) : ℚ :=
  if 0 < total then x / (total : ℚ) * 100 else x

/-- `evaluate_lotnlg` from `evaluate_lotnlg.py` (lines 36-176).  An empty
gold collection raises `StopIteration` at `next(iter(gold_data.values()))`
before the evaluation loop. -/
def evaluate_lotnlg (sc : LotScorers) (predictions : List (String × PyText))
    (gold_data : List GoldItem) : Except PyErr LotReport :=
  if gold_data.isEmpty then .error .stopIteration
  else
    let hasLL := hasLLOf gold_data
    match lotLoop sc hasLL gold_data predictions ⟨0, 0, 0, 0⟩ 0 0 with
    | .error e => .error e
    | .ok (s, total, nf) =>
      .ok ⟨finalizeMetric total s.nli_acc, finalizeMetric total s.rouge_l,
        finalizeMetric total s.bleu,
        if hasLL then finalizeMetric total s.type_em else 0,
        total, nf, hasLL⟩

/-- The `try` block of the `evaluate_logicnlg.py` loop (lines 80-124): same
shape as `lotTry` but scoring the raw prediction text (the script has no
normaliser) and using one-directional type matching without an
explicit-label branch. -/
def logicTry (sc : LotScorers) (hasLL : Bool) (g : GoldItem)
    (table_str pred_text gold_text : String) : LotSums × Bool :=
  match sc.nli (pyTake table_str 1000 ++ " [SEP] " ++ pyTake pred_text 500) with
  | none => (⟨0, 0, 0, 0⟩, false)
  | some lab =>
    let n : ℚ := if lab = "ENTAILMENT" then 1 else 0
    match sc.rouge gold_text pred_text with
    | none => (⟨n, 0, 0, 0⟩, false)
    | some r =>
      match sc.bleu (pySplit gold_text) (pySplit pred_text) with
      | none => (⟨n, r, 0, 0⟩, false)
      | some b =>
        if hasLL then
          match g.logical_labels with
          | none => (⟨n, r, b, 0⟩, false)
          | some ll =>
            match pyFirst ll with
            | none => (⟨n, r, b, 0⟩, false)
            | some gold_type =>
              let t : ℚ := if typeMatchLogic (predTypeLogic pred_text) gold_type then 1 else 0
              (⟨n, r, b, t⟩, true)
        else (⟨n, r, b, 0⟩, true)

/-- The evaluation loop of `evaluate_logicnlg.py` (lines 58-128). -/
def logicLoop (sc : LotScorers) (hasLL : Bool) (gold : List GoldItem) :
    List (String × PyText) → LotSums → Nat → Nat → Except PyErr (LotSums × Nat × Nat)
  | [], s, total, nf => .ok (s, total, nf)
  | (csv_id, pred_data) :: rest, s, total, nf =>
    match lookupGold gold csv_id with
    | none => logicLoop sc hasLL gold rest s total (nf + 1)
    | some g =>
      let pred_text := pyToText pred_data
      match g.table_text with
      | none => .error .keyError
      | some table_str =>
        match g.sentences with
        | none => .error .keyError
        | some sents =>
          match pyFirst sents with
          | none => .error .indexError
          | some gold_text =>
            match logicTry sc hasLL g table_str pred_text gold_text with
            | (d, ok) =>
              logicLoop sc hasLL gold rest
                ⟨s.nli_acc + d.nli_acc, s.rouge_l + d.rouge_l,
                  s.bleu + d.bleu, s.type_em + d.type_em⟩
                (if ok then total + 1 else total) nf

/-- `evaluate_lotnlg` as defined in `evaluate_logicnlg.py` (lines 9-139);
named `evaluate_logicnlg` here to keep the two files distinct. -/
def evaluate_logicnlg (sc : LotScorers) (predictions : List (String × PyText))
    (gold_data : List GoldItem) : Except PyErr LotReport :=
  if gold_data.isEmpty then .error .stopIteration
  else
    let hasLL := hasLLOf gold_data
    match logicLoop sc hasLL gold_data predictions ⟨0, 0, 0, 0⟩ 0 0 with
    | .error e => .error e
    | .ok (s, total, nf) =>
      .ok ⟨finalizeMetric total s.nli_acc, finalizeMetric total s.rouge_l,
        finalizeMetric total s.bleu,
        if hasLL then finalizeMetric total s.type_em else 0,
        total, nf, hasLL⟩

/-- External scorers of `evaluate_fetaqa.py`: one `rouge.score` call
returning the three ROUGE f-measures, and the smoothed BLEU scorer. -/
structure FetaScorers where
  rouge : String → String → Option (ℚ × ℚ × ℚ)
  bleu : List String → List String → Option ℚ

/-- The running metric sums of `evaluate_fetaqa.py`. -/
structure FetaSums where
  rouge1 : ℚ
  rouge2 : ℚ
  rougeL : ℚ
  bleu : ℚ
deriving DecidableEq

/-- The summary report of `evaluate_fetaqa.py`. -/
structure FetaReport where
  rouge1 : ℚ
  rouge2 : ℚ
  rougeL : ℚ
  bleu : ℚ
  total : Nat
  not_found : Nat
deriving DecidableEq

/-- The `try` block of the `evaluate_fetaqa.py` loop (lines 59-72): ROUGE
scores then BLEU; the ROUGE increments persist when the BLEU call raises. -/
def fetaTry (sc : FetaScorers) (gold_answer pred_text : String) : FetaSums × Bool :=
  match sc.rouge gold_answer pred_text with
  | none => (⟨0, 0, 0, 0⟩, false)
  | some (r1, r2, rl) =>
    match sc.bleu (pySplit gold_answer) (pySplit pred_text) with
    | none => (⟨r1, r2, rl, 0⟩, false)
    | some b => (⟨r1, r2, rl, b⟩, true)

/-- The evaluation loop of `evaluate_fetaqa.py` (lines 44-76).  The matched
gold record field `answer` is read outside the `try` block (line 57):
when absent, the `KeyError` terminates the run. -/
def fetaLoop (sc : FetaScorers) (gold : List GoldItem) :
    List (String × PyText) → FetaSums → Nat → Nat → Except PyErr (FetaSums × Nat × Nat)
  | [], s, total, nf => .ok (s, total, nf)
  | (table_id, pred_data) :: rest, s, total, nf =>
    match lookupGoldFeta gold table_id with
    | none => fetaLoop sc gold rest s total (nf + 1)
    | some g =>
      let pred_text := pyToText pred_data
      match g.answer with
      | none => .error .keyError
      | some gold_answer =>
        match fetaTry sc gold_answer pred_text with
        | (d, ok) =>
          fetaLoop sc gold rest
            ⟨s.rouge1 + d.rouge1, s.rouge2 + d.rouge2, s.rougeL + d.rougeL, s.bleu + d.bleu⟩
            (if ok then total + 1 else total) nf

/-- `evaluate_fetaqa` from `evaluate_fetaqa.py` (lines 8-86). -/
def evaluate_fetaqa (sc : FetaScorers) (predictions : List (String × PyText))
    (gold_data : List GoldItem) : Except PyErr FetaReport :=
  match fetaLoop sc gold_data predictions ⟨0, 0, 0, 0⟩ 0 0 with
  | .error e => .error e
  | .ok (s, total, nf) =>
    .ok ⟨finalizeMetric total s.rouge1, finalizeMetric total s.rouge2,
      finalizeMetric total s.rougeL, finalizeMetric total s.bleu, total, nf⟩

/-- `COT_EVAL_PROMPT.format(table=..., statement=...)` from `cot_eval.py`
(lines 12-26). -/
def COT_EVAL_PROMPT_format (table statement : String) : String :=
  "Given a table and a generated statement, determine if the statement is factually correct and faithful to the table.\n\nTable:\n"
    ++ table
    ++ "\n\nGenerated Statement:\n"
    ++ statement
    ++ "\n\nPlease reason step-by-step:\n1. Extract the key facts from the table\n2. Identify claims made in the statement\n3. Verify each claim against the table\n4. Determine if the statement is faithful (all facts are correct)\n\nAnswer with \"FAITHFUL\" or \"NOT FAITHFUL\" at the end."

/-- `COT_EVAL_PROMPT_LOTNLG.format(table=..., statement=...)` from
`cot_eval_lotnlg.py` (lines 12-27). -/
def COT_EVAL_PROMPT_LOTNLG_format (table statement : String) : String :=
  "Given a table and a generated statement about the table, determine if the statement is factually correct and faithful to the table data.\n\nTable:\n"
    ++ table
    ++ "\n\nGenerated Statement:\n"
    ++ statement
    ++ "\n\nPlease reason step-by-step:\n1. Extract the key facts mentioned in the statement\n2. Locate the relevant data in the table\n3. Verify each fact against the table data\n4. Check for any numerical errors, logical inconsistencies, or false claims\n5. Determine if the statement is completely faithful to the table\n\nAnswer with \"FAITHFUL\" or \"NOT FAITHFUL\" at the end."

/-- `COT_EVAL_PROMPT_FETAQA.format(...)` from `cot_eval_fetaqa.py`
(lines 12-30). -/
def COT_EVAL_PROMPT_FETAQA_format (table question reference prediction : String) : String :=
  "Given a table, a question about the table, a reference answer, and a predicted answer, determine if the predicted answer correctly answers the question based on the table.\n\nTable:\n"
    ++ table
    ++ "\n\nQuestion: "
    ++ question
    ++ "\n\nReference Answer: "
    ++ reference
    ++ "\n\nPredicted Answer: "
    ++ prediction
    ++ "\n\nPlease reason step-by-step:\n1. Identify what information the question asks for\n2. Extract the relevant data from the table\n3. Compare the predicted answer with the reference answer\n4. Check if the predicted answer contains the correct information from the table\n5. Determine if the prediction is correct (semantically equivalent, even if worded differently)\n\nAnswer with \"CORRECT\" or \"INCORRECT\" at the end."

/-- `evaluate_single` from `cot_eval.py` (lines 28-46), over a
chat-completion oracle `api`.  The function has no internal `try`: a failed
call (`none`) propagates to the caller. -/
def cot_evaluate_single (api : String → Option String)
    (table_text generated_text : String) : Option Nat :=
  match api (COT_EVAL_PROMPT_format table_text generated_text) with
  | none => none
  | some answer => some (evaluate_single_score answer)

/-- `evaluate_single_lotnlg` from `cot_eval_lotnlg.py` (lines 29-52): the
whole call is wrapped in `try … except: return 0`, so a failed external
call yields the score 0 rather than an exception. -/
def evaluate_single_lotnlg (api : String → Option String)
    (table_text generated_text : String) : Nat :=
  match api (COT_EVAL_PROMPT_LOTNLG_format table_text generated_text) with
  | none => 0
  | some answer => evaluate_single_lotnlg_score answer

/-- `evaluate_single_fetaqa` from `cot_eval_fetaqa.py` (lines 32-57):
`try … except: return 0` around the external call. -/
def evaluate_single_fetaqa (api : String → Option String)
    (table_text question reference prediction : String) : Nat :=
  match api (COT_EVAL_PROMPT_FETAQA_format table_text question reference prediction) with
  | none => 0
  | some answer => evaluate_single_fetaqa_score answer

/-- Result of a CoT evaluation run: score sum, evaluated count, not-found
count and the final accuracy percentage. -/
structure CotReport where
  total_score : Nat
  total_count : Nat
  not_found : Nat
  accuracy : ℚ
deriving DecidableEq

/-- The evaluation loop of `evaluate_all` in `cot_eval.py` (lines 75-93).
The matched gold record field `table_text` is read with `["table_text"]` outside
the `try` (line 83); the judge call sits inside the `try`, whose `except`
skips the example. -/
def cotLoop (api : String → Option String) (gold : List GoldItem) :
    List (String × String) → Nat → Nat → Nat → Except PyErr (Nat × Nat × Nat)
  | [], ts, tc, nf => .ok (ts, tc, nf)
  | (csv_id, pred_text) :: rest, ts, tc, nf =>
    match lookupGold gold csv_id with
    | none => cotLoop api gold rest ts tc (nf + 1)
    | some g =>
      match g.table_text with
      | none => .error .keyError
      | some table_text =>
        match cot_evaluate_single api table_text pred_text with
        | none => cotLoop api gold rest ts tc nf
        | some score => cotLoop api gold rest (ts + score) (tc + 1) nf

/-- `evaluate_all` from `cot_eval.py` (lines 48-107). -/
def evaluate_all (api : String → Option String)
    (predictions : List (String × String)) (gold_data : List GoldItem) :
    Except PyErr CotReport :=
  match cotLoop api gold_data predictions 0 0 0 with
  | .error e => .error e
  | .ok (ts, tc, nf) =>
    .ok ⟨ts, tc, nf, if 0 < tc then (ts : ℚ) / (tc : ℚ) * 100 else 0⟩

/-- The evaluation loop of `evaluate_all_lotnlg` in `cot_eval_lotnlg.py`
(lines 82-115).  `table_text` is read with `.get("table_text", "")`, and
`evaluate_single_lotnlg` never raises, so every matched example is counted
in `total_count` — the loop is total. -/
def cotLotnlgLoop (api : String → Option String) (gold : List GoldItem) :
    List (String × PyText) → Nat → Nat → Nat → Nat × Nat × Nat
  | [], ts, tc, nf => (ts, tc, nf)
  | (csv_id, pred_data) :: rest, ts, tc, nf =>
    match lookupGold gold csv_id with
    | none => cotLotnlgLoop api gold rest ts tc (nf + 1)
    | some g =>
      let pred_text := pyToText pred_data
      let table_text := g.table_text.getD ""
      let score := evaluate_single_lotnlg api (pyTake table_text 1500) (pyTake pred_text 800)
      cotLotnlgLoop api gold rest (ts + score) (tc + 1) nf

/-- `evaluate_all_lotnlg` from `cot_eval_lotnlg.py` (lines 54-134). -/
def evaluate_all_lotnlg (api : String → Option String)
    (predictions : List (String × PyText)) (gold_data : List GoldItem) : CotReport :=
  match cotLotnlgLoop api gold_data predictions 0 0 0 with
  | (ts, tc, nf) => ⟨ts, tc, nf, if 0 < tc then (ts : ℚ) / (tc : ℚ) * 100 else 0⟩

/-- The evaluation loop of `evaluate_all_fetaqa` in `cot_eval_fetaqa.py`
(lines 87-125): all gold fields are read with `.get(..., "")` defaults and
`evaluate_single_fetaqa` never raises, so the loop is total. -/
def cotFetaqaLoop (api : String → Option String) (gold : List GoldItem) :
    List (String × PyText) → Nat → Nat → Nat → Nat × Nat × Nat
  | [], ts, tc, nf => (ts, tc, nf)
  | (table_id, pred_data) :: rest, ts, tc, nf =>
    match lookupGoldFeta gold table_id with
    | none => cotFetaqaLoop api gold rest ts tc (nf + 1)
    | some g =>
      let pred_text := pyToText pred_data
      let table_text := g.table_text.getD ""
      let question := g.question.getD ""
      let reference := g.answer.getD ""
      let score := evaluate_single_fetaqa api (pyTake table_text 1500) question
        (pyTake reference 500) (pyTake pred_text 500)
      cotFetaqaLoop api gold rest (ts + score) (tc + 1) nf

/-- `evaluate_all_fetaqa` from `cot_eval_fetaqa.py` (lines 59-139). -/
def evaluate_all_fetaqa (api : String → Option String)
    (predictions : List (String × PyText)) (gold_data : List GoldItem) : CotReport :=
  match cotFetaqaLoop api gold_data predictions 0 0 0 with
  | (ts, tc, nf) => ⟨ts, tc, nf, if 0 < tc then (ts : ℚ) / (tc : ℚ) * 100 else 0⟩

/-- A chat-completion oracle whose every call raises. -/
def apiFail : String → Option String := fun _ => none

/-- A chat-completion oracle that always answers `"FAITHFUL"`. -/
def apiPos : String → Option String := fun _ => some "FAITHFUL"

/-- Lexical scorers whose every call raises. -/
def scFail : LotScorers := ⟨fun _ => none, fun _ _ => none, fun _ _ => none⟩

/-- Lexical scorers that always succeed. -/
def scAllOk : LotScorers :=
  ⟨fun _ => some "ENTAILMENT", fun _ _ => some 0, fun _ _ => some 0⟩

/-- Lexical scorers where the NLI call succeeds with `ENTAILMENT` but the
ROUGE call raises. -/
def scNliOnly : LotScorers :=
  ⟨fun _ => some "ENTAILMENT", fun _ _ => none, fun _ _ => some 0⟩

/-- FeTaQA scorers whose every call raises. -/
def scFetaFail : FetaScorers := ⟨fun _ _ => none, fun _ _ => none⟩

/-- FeTaQA scorers that always succeed. -/
def scFetaOk : FetaScorers := ⟨fun _ _ => some (0, 0, 0), fun _ _ => some 0⟩

/-- A well-formed gold record joined on `csv_id = "t1"`. -/
def goldCsv : GoldItem :=
  { csv_id := some "t1", table_text := some "T", sentences := some (PyText.str "g") }

/-- A gold record with only the `csv_id` key. -/
def goldCsvBare : GoldItem := { csv_id := some "t1" }

/-- A FeTaQA gold record lacking the `answer` key. -/
def goldFetaNoAnswer : GoldItem := { feta_id := some "1" }

/-- A well-formed FeTaQA gold record. -/
def goldFetaOk : GoldItem := { feta_id := some "1", answer := some "a" }

/-- Claim C10: on an empty gold collection both LogicNLG/LoTNLG lexical
evaluators raise `StopIteration` (`next(iter(gold_data.values()))`) before
the evaluation loop runs, instead of returning a report with `total = 0`
and `not_found` equal to the number of predictions. -/
theorem claim_C10_empty_gold_raises (sc sc2 : LotScorers)
    (predictions : List (String × PyText)) (h : predictions ≠ []) :
    errOf (evaluate_lotnlg sc predictions []) = some PyErr.stopIteration ∧
    errOf (evaluate_logicnlg sc2 predictions []) = some PyErr.stopIteration ∧
    reportOf (evaluate_lotnlg sc predictions []) = none ∧
    reportOf (evaluate_logicnlg sc2 predictions []) = none :=
  ⟨rfl, rfl, rfl, rfl⟩

/-- Witness for claim C10 at a concrete non-empty prediction set. -/
theorem claim_C10_empty_gold_raises_witness :
    errOf (evaluate_lotnlg scFail [("t1", PyText.str "x")] []) = some PyErr.stopIteration ∧
    errOf (evaluate_logicnlg scFail [("t1", PyText.str "x")] []) = some PyErr.stopIteration ∧
    reportOf (evaluate_lotnlg scFail [("t1", PyText.str "x")] []) = none ∧
    reportOf (evaluate_logicnlg scFail [("t1", PyText.str "x")] []) = none :=
  claim_C10_empty_gold_raises scFail scFail [("t1", PyText.str "x")] (by decide)

/-- Claim C4 counterexample: a matched FeTaQA gold record lacking the
`answer` field makes the run raise `KeyError` (the field is read outside the
`try` block), terminating the evaluation loop instead of completing with a
summary report. -/
theorem claim_C4_counterexample :
    errOf (evaluate_fetaqa scFetaOk [("1", PyText.str "x")] [goldFetaNoAnswer])
        = some PyErr.keyError ∧
    runOkE (evaluate_fetaqa scFetaOk [("1", PyText.str "x")] [goldFetaNoAnswer]) = false := by
  exact ⟨by decide, by decide⟩

theorem lookupGold_mem {gold : List GoldItem} {k : String} {g : GoldItem}
    (h : lookupGold gold k = some g) : g ∈ gold :=
  List.mem_reverse.mp (List.mem_of_find?_eq_some h)

theorem lookupGoldFeta_mem {gold : List GoldItem} {k : String} {g : GoldItem}
    (h : lookupGoldFeta gold k = some g) : g ∈ gold :=
  List.mem_reverse.mp (List.mem_of_find?_eq_some h)

/-- Gold fields read outside the `try` block by the LogicNLG/LoTNLG loops:
`table_text`, and a `sentences` value with a first element. -/
def lotFieldsOk (g : GoldItem) : Bool :=
  g.table_text.isSome &&
    (match g.sentences with
     | some t => (pyFirst t).isSome
     | none => false)

/-- Gold field read outside the `try` block by the FeTaQA loop: `answer`. -/
def fetaFieldsOk (g : GoldItem) : Bool :=
  g.answer.isSome

theorem fetaLoop_completes (sc : FetaScorers) (gold : List GoldItem)
    (hall : gold.all fetaFieldsOk = true) :
    ∀ (preds : List (String × PyText)) (s : FetaSums) (total nf : Nat),
      runOkE (fetaLoop sc gold preds s total nf) = true := by
  intro preds
  induction preds with
  | nil => intro s total nf; rfl
  | cons p rest ih =>
    obtain ⟨k, pd⟩ := p
    intro s total nf
    cases hl : lookupGoldFeta gold k with
    | none =>
      simp only [fetaLoop, hl]
      exact ih _ _ _
    | some g =>
      have hok : fetaFieldsOk g = true :=
        List.all_eq_true.mp hall g (lookupGoldFeta_mem hl)
      cases ha : g.answer with
      | none => rw [fetaFieldsOk, ha] at hok; simp at hok
      | some gold_answer =>
        simp only [fetaLoop, hl, ha]
        exact ih _ _ _

theorem logicLoop_completes (sc : LotScorers) (b : Bool) (gold : List GoldItem)
    (hall : gold.all lotFieldsOk = true) :
    ∀ (preds : List (String × PyText)) (s : LotSums) (total nf : Nat),
      runOkE (logicLoop sc b gold preds s total nf) = true := by
  intro preds
  induction preds with
  | nil => intro s total nf; rfl
  | cons p rest ih =>
    obtain ⟨k, pd⟩ := p
    intro s total nf
    cases hl : lookupGold gold k with
    | none =>
      simp only [logicLoop, hl]
      exact ih _ _ _
    | some g =>
      have hok : lotFieldsOk g = true :=
        List.all_eq_true.mp hall g (lookupGold_mem hl)
      cases ht : g.table_text with
      | none => rw [lotFieldsOk, ht] at hok; simp at hok
      | some tbl =>
        cases hs : g.sentences with
        | none => rw [lotFieldsOk, hs] at hok; simp at hok
        | some sents =>
          cases hf : pyFirst sents with
          | none => rw [lotFieldsOk, hs] at hok; simp [hf] at hok
          | some gold_text =>
            simp only [logicLoop, hl, ht, hs, hf]
            exact ih _ _ _

theorem lotLoop_completes (sc : LotScorers) (b : Bool) (gold : List GoldItem)
    (hall : gold.all lotFieldsOk = true) :
    ∀ (preds : List (String × PyText)) (s : LotSums) (total nf : Nat),
      runOkE (lotLoop sc b gold preds s total nf) = true := by
  intro preds
  induction preds with
  | nil => intro s total nf; rfl
  | cons p rest ih =>
    obtain ⟨k, pd⟩ := p
    intro s total nf
    cases hl : lookupGold gold k with
    | none =>
      simp only [lotLoop, hl]
      exact ih _ _ _
    | some g =>
      have hok : lotFieldsOk g = true :=
        List.all_eq_true.mp hall g (lookupGold_mem hl)
      cases ht : g.table_text with
      | none => rw [lotFieldsOk, ht] at hok; simp at hok
      | some tbl =>
        cases hs : g.sentences with
        | none => rw [lotFieldsOk, hs] at hok; simp at hok
        | some sents =>
          cases hf : pyFirst sents with
          | none => rw [lotFieldsOk, hs] at hok; simp [hf] at hok
          | some gold_text =>
            simp only [lotLoop, hl, ht, hs, hf]
            exact ih _ _ _

/-- Claim C4, amended: exceptions raised inside the per-example `try` block
(all scorer invocations) never terminate the evaluation loops — but the
fields `answer` (FeTaQA) and `table_text`/`sentences` with a first element
(LogicNLG/LoTNLG) of a matched gold record are read outside the `try`, so
the run is only guaranteed to complete and produce a summary report when
every gold record carries those fields (and, for the LogicNLG/LoTNLG
scripts, the gold collection is non-empty); a matched record lacking them
aborts the run. -/
theorem claim_C4_amended :
    (∀ (sc : FetaScorers) (predictions : List (String × PyText))
        (gold_data : List GoldItem),
      gold_data.all fetaFieldsOk = true →
      runOkE (evaluate_fetaqa sc predictions gold_data) = true) ∧
    (∀ (sc : LotScorers) (predictions : List (String × PyText))
        (gold_data : List GoldItem),
      gold_data ≠ [] → gold_data.all lotFieldsOk = true →
      runOkE (evaluate_logicnlg sc predictions gold_data) = true) ∧
    (∀ (sc : LotScorers) (predictions : List (String × PyText))
        (gold_data : List GoldItem),
      gold_data ≠ [] → gold_data.all lotFieldsOk = true →
      runOkE (evaluate_lotnlg sc predictions gold_data) = true) := by
  refine ⟨?_, ?_, ?_⟩
  · intro sc preds gold hall
    have h := fetaLoop_completes sc gold hall preds ⟨0, 0, 0, 0⟩ 0 0
    cases hrun : fetaLoop sc gold preds ⟨0, 0, 0, 0⟩ 0 0 with
    | error e => rw [hrun] at h; simp [runOkE] at h
    | ok out =>
      obtain ⟨s, total, nf⟩ := out
      simp [evaluate_fetaqa, hrun, runOkE]
  · intro sc preds gold hne hall
    cases gold with
    | nil => exact absurd rfl hne
    | cons g0 gs =>
      have h := logicLoop_completes sc (hasLLOf (g0 :: gs)) (g0 :: gs) hall preds ⟨0, 0, 0, 0⟩ 0 0
      cases hrun : logicLoop sc (hasLLOf (g0 :: gs)) (g0 :: gs) preds ⟨0, 0, 0, 0⟩ 0 0 with
      | error e => rw [hrun] at h; simp [runOkE] at h
      | ok out =>
        obtain ⟨s, total, nf⟩ := out
        simp [evaluate_logicnlg, hrun, runOkE]
  · intro sc preds gold hne hall
    cases gold with
    | nil => exact absurd rfl hne
    | cons g0 gs =>
      have h := lotLoop_completes sc (hasLLOf (g0 :: gs)) (g0 :: gs) hall preds ⟨0, 0, 0, 0⟩ 0 0
      cases hrun : lotLoop sc (hasLLOf (g0 :: gs)) (g0 :: gs) preds ⟨0, 0, 0, 0⟩ 0 0 with
      | error e => rw [hrun] at h; simp [runOkE] at h
      | ok out =>
        obtain ⟨s, total, nf⟩ := out
        simp [evaluate_lotnlg, hrun, runOkE]

/-- Witness for the amended claim C4: with well-formed gold records the
runs complete even when every scorer invocation raises. -/
theorem claim_C4_amended_witness :
    runOkE (evaluate_fetaqa scFetaFail [("1", PyText.str "x")] [goldFetaOk]) = true ∧
    runOkE (evaluate_logicnlg scFail [("t1", PyText.str "x")] [goldCsv]) = true ∧
    runOkE (evaluate_lotnlg scFail [("t1", PyText.str "x")] [goldCsv]) = true :=
  ⟨claim_C4_amended.1 scFetaFail [("1", PyText.str "x")] [goldFetaOk] (by decide),
   claim_C4_amended.2.1 scFail [("t1", PyText.str "x")] [goldCsv] (by decide) (by decide),
   claim_C4_amended.2.2 scFail [("t1", PyText.str "x")] [goldCsv] (by decide) (by decide)⟩

/-- Claim C9 counterexample: with one matched example on which the NLI call
succeeds with `ENTAILMENT` but the ROUGE call raises, the example is skipped
(`total = 0`) yet the already-incremented `nli_acc` sum of 1 survives: the
finalized report is not 0 for every metric. -/
theorem claim_C9_counterexample :
    reportOf (evaluate_lotnlg scNliOnly [("t1", PyText.str "x")] [goldCsv])
        = some ⟨(0 : ℚ) + 1, (0 : ℚ) + 0, (0 : ℚ) + 0, 0, 0, 0, false⟩ ∧
    (0 : ℚ) + 1 ≠ 0 := by
  refine ⟨rfl, by norm_num⟩

/-- Claim C9, amended: when `total = 0` no division is performed and each
metric is reported as its accumulated raw sum (which is 0 unless an
exception interrupted an example after some metric increment); when
`total > 0` each metric is its accumulated sum divided by `total` and
multiplied by 100. -/
theorem claim_C9_amended (total : Nat) (x : ℚ) :
    (total = 0 → finalizeMetric total x = x) ∧
    (0 < total → finalizeMetric total x = x / (total : ℚ) * 100) := by
  constructor
  · intro h
    subst h
    simp [finalizeMetric]
  · intro h
    simp [finalizeMetric, h]

/-- Witness for the amended claim C9. -/
theorem claim_C9_amended_witness :
    finalizeMetric 0 (5 : ℚ) = 5 ∧ finalizeMetric 2 (1 : ℚ) = 1 / ((2 : Nat) : ℚ) * 100 :=
  ⟨(claim_C9_amended 0 5).1 rfl, (claim_C9_amended 2 1).2 (by decide)⟩

theorem cotLoop_partition (api : String → Option String) (gold : List GoldItem)
    (hapi : ∀ p, (api p).isSome = true) :
    ∀ (preds : List (String × String)) (ts tc nf : Nat) (out : Nat × Nat × Nat),
      cotLoop api gold preds ts tc nf = .ok out →
      out.2.1 + out.2.2 = tc + nf + preds.length := by
  intro preds
  induction preds with
  | nil =>
    intro ts tc nf out h
    simp only [cotLoop, Except.ok.injEq] at h
    subst h
    simp
  | cons p rest ih =>
    obtain ⟨k, pt⟩ := p
    intro ts tc nf out h
    cases hl : lookupGold gold k with
    | none =>
      rw [cotLoop, hl] at h
      have := ih _ _ _ _ h
      simp only [List.length_cons] at this ⊢
      omega
    | some g =>
      cases ht : g.table_text with
      | none =>
        rw [cotLoop, hl] at h
        simp only [ht] at h
        exact absurd h (by simp)
      | some tbl =>
        have hs := hapi (COT_EVAL_PROMPT_format tbl pt)
        cases hse : api (COT_EVAL_PROMPT_format tbl pt) with
        | none => rw [hse] at hs; simp at hs
        | some ans =>
          rw [cotLoop, hl] at h
          simp only [ht, cot_evaluate_single, hse] at h
          have := ih _ _ _ _ h
          simp only [List.length_cons] at this ⊢
          omega

theorem lotLoop_partition (sc : LotScorers) (b : Bool) (gold : List GoldItem)
    (htry : ∀ k g, lookupGold gold k = some g →
      ∀ ts pt pc gt, (lotTry sc b g ts pt pc gt).2 = true) :
    ∀ (preds : List (String × PyText)) (s : LotSums) (total nf : Nat)
      (out : LotSums × Nat × Nat),
      lotLoop sc b gold preds s total nf = .ok out →
      out.2.1 + out.2.2 = total + nf + preds.length := by
  intro preds
  induction preds with
  | nil =>
    intro s total nf out h
    simp only [lotLoop, Except.ok.injEq] at h
    subst h
    simp
  | cons p rest ih =>
    obtain ⟨k, pd⟩ := p
    intro s total nf out h
    cases hl : lookupGold gold k with
    | none =>
      rw [lotLoop, hl] at h
      have := ih _ _ _ _ h
      simp only [List.length_cons] at this ⊢
      omega
    | some g =>
      cases ht : g.table_text with
      | none =>
        rw [lotLoop, hl] at h
        simp only [ht] at h
        exact absurd h (by simp)
      | some tbl =>
        cases hsen : g.sentences with
        | none =>
          rw [lotLoop, hl] at h
          simp only [ht, hsen] at h
          exact absurd h (by simp)
        | some sents =>
          cases hf : pyFirst sents with
          | none =>
            rw [lotLoop, hl] at h
            simp only [ht, hsen, hf] at h
            exact absurd h (by simp)
          | some gold_text =>
            rw [lotLoop, hl] at h
            simp only [ht, hsen, hf] at h
            rw [htry k g hl tbl (pyToText pd) (clean_prediction_text (pyToText pd)) gold_text]
              at h
            simp only [if_true] at h
            have := ih _ _ _ _ h
            simp only [List.length_cons] at this ⊢
            omega

/-- Claim C2: whenever a run completes and no scorer invocation raises, the
reported counts partition the prediction set — `total + not_found`
equals the number of predictions: each prediction either has no gold record
under the secondary key or is matched and scored.  Stated for
`evaluate_all` of `cot_eval.py` (judge oracle total) and for
`evaluate_lotnlg` of `evaluate_lotnlg.py` (per-example scoring block
succeeding on every matched record). -/
theorem claim_C2_total_partition :
    (∀ (api : String → Option String) (predictions : List (String × String))
        (gold_data : List GoldItem) (r : CotReport),
      (∀ p, (api p).isSome = true) →
      reportOf (evaluate_all api predictions gold_data) = some r →
      r.total_count + r.not_found = predictions.length) ∧
    (∀ (sc : LotScorers) (predictions : List (String × PyText))
        (gold_data : List GoldItem) (r : LotReport),
      (∀ k g, lookupGold gold_data k = some g →
        ∀ ts pt pc gt, (lotTry sc (hasLLOf gold_data) g ts pt pc gt).2 = true) →
      reportOf (evaluate_lotnlg sc predictions gold_data) = some r →
      r.total + r.not_found = predictions.length) := by
  constructor
  · intro api preds gold r hapi hrun
    cases hloop : cotLoop api gold preds 0 0 0 with
    | error e =>
      rw [evaluate_all, hloop] at hrun
      exact absurd hrun (by simp [reportOf])
    | ok out =>
      obtain ⟨ts, tc, nf⟩ := out
      rw [evaluate_all, hloop] at hrun
      simp only [reportOf, Option.some.injEq] at hrun
      have hpart := cotLoop_partition api gold hapi preds 0 0 0 (ts, tc, nf) hloop
      subst hrun
      simpa using hpart
  · intro sc preds gold r htry hrun
    cases gold with
    | nil => exact absurd hrun (by simp [evaluate_lotnlg, reportOf])
    | cons g0 gs =>
      cases hloop : lotLoop sc (hasLLOf (g0 :: gs)) (g0 :: gs) preds ⟨0, 0, 0, 0⟩ 0 0 with
      | error e =>
        rw [evaluate_lotnlg] at hrun
        simp only [List.isEmpty_cons, Bool.false_eq_true, if_false] at hrun
        rw [hloop] at hrun
        exact absurd hrun (by simp [reportOf])
      | ok out =>
        obtain ⟨s, total, nf⟩ := out
        rw [evaluate_lotnlg] at hrun
        simp only [List.isEmpty_cons, Bool.false_eq_true, if_false] at hrun
        rw [hloop] at hrun
        simp only [reportOf, Option.some.injEq] at hrun
        have hpart := lotLoop_partition sc (hasLLOf (g0 :: gs)) (g0 :: gs) htry preds
          ⟨0, 0, 0, 0⟩ 0 0 (s, total, nf) hloop
        subst hrun
        simpa using hpart

/-- Witness for claim C2 at concrete inputs on which the judge and the
scorers always succeed. -/
theorem claim_C2_total_partition_witness :
    ((reportOf (evaluate_all apiPos [("t1", "x")] [goldCsv])).getD
        ⟨0, 0, 0, 0⟩).total_count +
      ((reportOf (evaluate_all apiPos [("t1", "x")] [goldCsv])).getD
        ⟨0, 0, 0, 0⟩).not_found = 1 ∧
    ((reportOf (evaluate_lotnlg scAllOk [("t1", PyText.str "x")] [goldCsv])).getD
        ⟨0, 0, 0, 0, 0, 0, false⟩).total +
      ((reportOf (evaluate_lotnlg scAllOk [("t1", PyText.str "x")] [goldCsv])).getD
        ⟨0, 0, 0, 0, 0, 0, false⟩).not_found = 1 :=
  ⟨claim_C2_total_partition.1 apiPos [("t1", "x")] [goldCsv] _ (fun _ => rfl) rfl,
   claim_C2_total_partition.2 scAllOk [("t1", PyText.str "x")] [goldCsv] _
     (fun _ _ _ _ _ _ _ => rfl) rfl⟩

/-- Claim C3 counterexample: in `cot_eval_lotnlg.py` and
`cot_eval_fetaqa.py` a failed external judge call is caught inside
`evaluate_single_*`, which returns 0; the caller then adds the 0 to the
score sum and increments `total_count`.  With a single matched prediction
and an always-failing judge the run reports `total_count = 1` (the example
is counted, with score 0), not `total_count = 0` as the claim requires. -/
theorem claim_C3_counterexample :
    (evaluate_all_lotnlg apiFail [("t1", PyText.str "x")] [goldCsvBare]).total_count = 1 ∧
    (evaluate_all_lotnlg apiFail [("t1", PyText.str "x")] [goldCsvBare]).total_score = 0 ∧
    (evaluate_all_fetaqa apiFail [("1", PyText.str "x")] [goldFetaNoAnswer]).total_count = 1 ∧
    (evaluate_all_fetaqa apiFail [("1", PyText.str "x")] [goldFetaNoAnswer]).total_score = 0 := by
  refine ⟨by decide, by decide, by decide, by decide⟩

/-- Claim C3, amended: the three judge scripts differ.  In `cot_eval.py` a
raised judge call is caught by the loop `except ... continue` clause, so the
matched example contributes to neither the score sum nor `total_count`.  In
`cot_eval_lotnlg.py` and `cot_eval_fetaqa.py` the failure is caught inside
`evaluate_single_*` and returned as score 0, so the matched example is
counted in `total_count` with a score contribution of 0 rather than being
skipped. -/
theorem claim_C3_amended :
    (∀ (api : String → Option String) (gold : List GoldItem)
        (csv_id pred_text : String) (rest : List (String × String))
        (ts tc nf : Nat) (g : GoldItem) (tbl : String),
      lookupGold gold csv_id = some g → g.table_text = some tbl →
      api (COT_EVAL_PROMPT_format tbl pred_text) = none →
      cotLoop api gold ((csv_id, pred_text) :: rest) ts tc nf
        = cotLoop api gold rest ts tc nf) ∧
    (∀ (api : String → Option String) (gold : List GoldItem) (csv_id : String)
        (pred_data : PyText) (rest : List (String × PyText))
        (ts tc nf : Nat) (g : GoldItem),
      lookupGold gold csv_id = some g →
      api (COT_EVAL_PROMPT_LOTNLG_format (pyTake (g.table_text.getD "") 1500)
        (pyTake (pyToText pred_data) 800)) = none →
      cotLotnlgLoop api gold ((csv_id, pred_data) :: rest) ts tc nf
        = cotLotnlgLoop api gold rest ts (tc + 1) nf) ∧
    (∀ (api : String → Option String) (gold : List GoldItem) (table_id : String)
        (pred_data : PyText) (rest : List (String × PyText))
        (ts tc nf : Nat) (g : GoldItem),
      lookupGoldFeta gold table_id = some g →
      api (COT_EVAL_PROMPT_FETAQA_format (pyTake (g.table_text.getD "") 1500)
        (g.question.getD "") (pyTake (g.answer.getD "") 500)
        (pyTake (pyToText pred_data) 500)) = none →
      cotFetaqaLoop api gold ((table_id, pred_data) :: rest) ts tc nf
        = cotFetaqaLoop api gold rest ts (tc + 1) nf) := by
  refine ⟨?_, ?_, ?_⟩
  · intro api gold csv_id pred_text rest ts tc nf g tbl hl ht hapi
    rw [cotLoop, hl]
    simp only [ht, cot_evaluate_single, hapi]
  · intro api gold csv_id pred_data rest ts tc nf g hl hapi
    rw [cotLotnlgLoop, hl]
    simp only [evaluate_single_lotnlg, hapi, Nat.add_zero]
  · intro api gold table_id pred_data rest ts tc nf g hl hapi
    rw [cotFetaqaLoop, hl]
    simp only [evaluate_single_fetaqa, hapi, Nat.add_zero]

/-- Witness for the amended claim C3 at concrete inputs. -/
theorem claim_C3_amended_witness :
    cotLoop apiFail [goldCsv] [("t1", "x")] 0 0 0 = cotLoop apiFail [goldCsv] [] 0 0 0 ∧
    cotLotnlgLoop apiFail [goldCsvBare] [("t1", PyText.str "x")] 0 0 0
      = cotLotnlgLoop apiFail [goldCsvBare] [] 0 (0 + 1) 0 ∧
    cotFetaqaLoop apiFail [goldFetaNoAnswer] [("1", PyText.str "x")] 0 0 0
      = cotFetaqaLoop apiFail [goldFetaNoAnswer] [] 0 (0 + 1) 0 :=
  ⟨claim_C3_amended.1 apiFail [goldCsv] "t1" "x" [] 0 0 0 goldCsv "T" (by decide) rfl rfl,
   claim_C3_amended.2.1 apiFail [goldCsvBare] "t1" (PyText.str "x") [] 0 0 0 goldCsvBare
     (by decide) rfl,
   claim_C3_amended.2.2 apiFail [goldFetaNoAnswer] "1" (PyText.str "x") [] 0 0 0
     goldFetaNoAnswer (by decide) rfl⟩

theorem pySplitAux_good : ∀ (l acc : List Char), acc.all (fun c => !isWS c) = true →
    ∀ w ∈ pySplitAux l acc, w ≠ [] ∧ w.all (fun c => !isWS c) = true := by
  intro l
  induction l with
  | nil =>
    intro acc hacc w hw
    cases ha : acc.isEmpty with
    | true => simp [pySplitAux, ha] at hw
    | false =>
      simp [pySplitAux, ha] at hw
      subst hw
      refine ⟨?_, by simpa using hacc⟩
      intro hcon
      rw [List.reverse_eq_nil_iff] at hcon
      subst hcon
      simp at ha
  | cons c cs ih =>
    intro acc hacc w hw
    cases hc : isWS c with
    | true =>
      cases ha : acc.isEmpty with
      | true =>
        simp [pySplitAux, hc, ha] at hw
        exact ih [] rfl w hw
      | false =>
        simp [pySplitAux, hc, ha] at hw
        rcases hw with rfl | hw2
        · refine ⟨?_, by simpa using hacc⟩
          intro hcon
          rw [List.reverse_eq_nil_iff] at hcon
          subst hcon
          simp at ha
        · exact ih [] rfl w hw2
    | false =>
      simp [pySplitAux, hc] at hw
      refine ih (c :: acc) ?_ w hw
      simp only [List.all_cons, Bool.and_eq_true]
      exact ⟨by simp [hc], hacc⟩

theorem pySplitAux_word : ∀ (w l acc : List Char), w.all (fun c => !isWS c) = true →
    pySplitAux (w ++ l) acc = pySplitAux l (w.reverse ++ acc) := by
  intro w
  induction w with
  | nil => intro l acc _; simp
  | cons c w' ih =>
    intro l acc hall
    simp only [List.all_cons, Bool.and_eq_true, Bool.not_eq_eq_eq_not, Bool.not_true] at hall
    have hc : isWS c = false := by simpa using hall.1
    simp only [List.cons_append, pySplitAux, hc, Bool.false_eq_true, if_false,
      List.append_eq]
    rw [ih l (c :: acc) (by simpa using hall.2)]
    congr 1
    simp

theorem pySplitList_joinSp : ∀ ws : List (List Char),
    (∀ w ∈ ws, w ≠ [] ∧ w.all (fun c => !isWS c) = true) →
    pySplitList (joinSp ws) = ws := by
  intro ws
  induction ws with
  | nil => intro _; rfl
  | cons w ws' ih =>
    intro hall
    have hw := hall w (List.mem_cons_self _ _)
    have hrev : (w.reverse).isEmpty = false := by
      cases hcc : w with
      | nil => exact absurd hcc hw.1
      | cons a as => simp
    cases ws' with
    | nil =>
      have hword := pySplitAux_word w [] [] hw.2
      simp only [List.append_nil] at hword
      show pySplitAux w [] = [w]
      rw [hword]
      simp [pySplitAux, hrev]
    | cons w2 ws'' =>
      show pySplitAux (w ++ ' ' :: joinSp (w2 :: ws'')) [] = w :: w2 :: ws''
      rw [pySplitAux_word w (' ' :: joinSp (w2 :: ws'')) [] hw.2]
      simp only [List.append_nil]
      have hws : isWS ' ' = true := rfl
      simp only [pySplitAux, hws, hrev, Bool.false_eq_true, if_false, if_true,
        List.reverse_reverse]
      congr 1
      exact ih (fun x hx => hall x (List.mem_cons_of_mem _ hx))

theorem collapseWS_idem (l : List Char) : collapseWS (collapseWS l) = collapseWS l := by
  show joinSp (pySplitList (joinSp (pySplitList l))) = joinSp (pySplitList l)
  rw [pySplitList_joinSp (pySplitList l) (pySplitAux_good l [] rfl)]

/-- Claim C5, amended: `clean_prediction_text` is not idempotent in general
(see the counterexample), but its final whitespace-collapse step is, and the
function is idempotent on every input whose cleaned form is left unchanged
by each of the pattern-removal steps — no residual header match, no
`Claim N:` segment, no `Reasoning` span and no bold pair in the output. -/
theorem claim_C5_amended (x : String)
    (h1 : step1 (clean_prediction_text x).data = (clean_prediction_text x).data)
    (h2 : findClaims (clean_prediction_text x).data = [])
    (h3 : step3 (clean_prediction_text x).data = (clean_prediction_text x).data)
    (h4 : step4 (clean_prediction_text x).data = (clean_prediction_text x).data) :
    clean_prediction_text (clean_prediction_text x) = clean_prediction_text x := by
  set y := clean_prediction_text x with hy
  have hzz : y.data = collapseWS (step4 (step3
      (if (findClaims (step1 x.data)).isEmpty then step1 x.data
       else joinSp (findClaims (step1 x.data))))) := by
    rw [hy]
    rfl
  show clean_prediction_text y = y
  unfold clean_prediction_text
  simp only [h1, h2, h3, h4, List.isEmpty_nil, if_true]
  rw [hzz, collapseWS_idem, ← hzz]

/-- Witness for the amended claim C5: an input whose cleaned form contains
no residual pattern, so a second application is the identity. -/
theorem claim_C5_amended_witness :
    clean_prediction_text (clean_prediction_text "## hello  world")
      = clean_prediction_text "## hello  world" :=
  claim_C5_amended "## hello  world" (by decide) (by decide) (by decide) (by decide)

theorem dropWhile_length_le (p : Char → Bool) :
    ∀ l : List Char, (l.dropWhile p).length ≤ l.length := by
  intro l
  induction l with
  | nil => simp
  | cons c cs ih =>
    rw [List.dropWhile_cons]
    by_cases h : p c = true
    · rw [if_pos h]
      exact Nat.le_trans ih (Nat.le_succ _)
    · rw [if_neg h]

theorem tryBold_not_star {c : Char} (hc : (c == '*') = false) :
    ∀ l : List Char, tryBold (c :: l) = none := by
  intro l
  cases l with
  | nil => rfl
  | cons c2 rest => simp [tryBold, hc]

theorem tryBold_some_length :
    ∀ (l w r : List Char), tryBold l = some (w, r) → r.length < l.length := by
  intro l w r h
  cases l with
  | nil => exact absurd h (by simp [tryBold])
  | cons c1 t1 =>
    cases t1 with
    | nil => exact absurd h (by simp [tryBold])
    | cons c2 rest =>
      simp only [tryBold] at h
      by_cases hstar : (c1 == '*' && c2 == '*') = true
      · rw [if_pos hstar] at h
        by_cases hw : ((rest.takeWhile (fun c => c != '*')).isEmpty) = true
        · rw [if_pos hw] at h
          exact absurd h (by simp)
        · rw [if_neg hw] at h
          cases hdw : rest.dropWhile (fun c => c != '*') with
          | nil =>
            rw [hdw] at h
            exact absurd h (by simp)
          | cons r1 t2 =>
            cases t2 with
            | nil =>
              rw [hdw] at h
              exact absurd h (by simp)
            | cons r2 r3 =>
              rw [hdw] at h
              have h' : (if (r1 == '*' && r2 == '*') = true
                  then some (List.takeWhile (fun c => c != '*') rest, r3) else none)
                  = some (w, r) := h
              by_cases hss : (r1 == '*' && r2 == '*') = true
              · rw [if_pos hss] at h'
                simp only [Option.some.injEq, Prod.mk.injEq] at h'
                obtain ⟨-, rfl⟩ := h'
                have h2 : (rest.dropWhile (fun c => c != '*')).length ≤ rest.length :=
                  dropWhile_length_le _ rest
                rw [hdw] at h2
                simp only [List.length_cons] at h2 ⊢
                omega
              · rw [if_neg hss] at h'
                exact absurd h' (by simp)
      · rw [if_neg hstar] at h
        exact absurd h (by simp)

theorem step4Go_congr :
    ∀ (n m : Nat) (l : List Char), l.length ≤ n → l.length ≤ m →
      step4Go n l = step4Go m l := by
  intro n
  induction n with
  | zero =>
    intro m l hn _
    have : l = [] := List.length_eq_zero.mp (Nat.le_zero.mp hn)
    subst this
    cases m <;> rfl
  | succ n' ih =>
    intro m l hn hm
    cases l with
    | nil => cases m <;> rfl
    | cons c cs =>
      cases m with
      | zero => simp at hm
      | succ m' =>
        cases htry : tryBold (c :: cs) with
        | none =>
          have hlen : cs.length ≤ n' := by
            simp only [List.length_cons] at hn
            omega
          have hlen2 : cs.length ≤ m' := by
            simp only [List.length_cons] at hm
            omega
          simp only [step4Go, htry]
          rw [ih m' cs hlen hlen2]
        | some pr =>
          obtain ⟨w, rest⟩ := pr
          have hr := tryBold_some_length (c :: cs) w rest htry
          have hlen : rest.length ≤ n' := by
            simp only [List.length_cons] at hn hr
            omega
          have hlen2 : rest.length ≤ m' := by
            simp only [List.length_cons] at hm hr
            omega
          simp only [step4Go, htry]
          rw [ih m' rest hlen hlen2]

theorem step4Go_eq (fuel : Nat) (l : List Char) (h : l.length ≤ fuel) :
    step4Go fuel l = step4 l :=
  step4Go_congr fuel l.length l h le_rfl

theorem step4Go_bold :
    ∀ (fuel : Nat) (s t u : List Char),
      (s ++ '*' :: '*' :: (t ++ '*' :: '*' :: u)).length ≤ fuel →
      s.all (fun c => c != '*') = true → t ≠ [] → t.all (fun c => c != '*') = true →
      step4Go fuel (s ++ '*' :: '*' :: (t ++ '*' :: '*' :: u)) = s ++ (t ++ step4 u) := by
  intro fuel
  induction fuel with
  | zero =>
    intro s t u hlen _ _ _
    simp [List.length_append, List.length_cons] at hlen
  | succ f ih =>
    intro s t u hlen hs ht ht2
    cases s with
    | nil =>
      cases t with
      | nil => exact absurd rfl ht
      | cons a as =>
        have htake : ((a :: as) ++ '*' :: '*' :: u).takeWhile (fun c => c != '*')
            = a :: as :=
          takeWhile_exact _ (a :: as) '*' ('*' :: u) ht2 (by decide)
        have hdrop : ((a :: as) ++ '*' :: '*' :: u).dropWhile (fun c => c != '*')
            = '*' :: '*' :: u :=
          dropWhile_exact _ (a :: as) '*' ('*' :: u) ht2 (by decide)
        have htry : tryBold ('*' :: '*' :: ((a :: as) ++ '*' :: '*' :: u))
            = some (a :: as, u) := by
          simp only [tryBold, htake, hdrop]
          simp
        have hu : u.length ≤ f := by
          simp only [List.nil_append, List.length_cons, List.length_append] at hlen
          omega
        simp only [List.nil_append]
        simp only [step4Go, htry]
        rw [step4Go_eq f u hu]
    | cons c s' =>
      have hc : (c == '*') = false := by
        simp only [List.all_cons, Bool.and_eq_true] at hs
        simpa using hs.1
      have hs' : s'.all (fun c => c != '*') = true := by
        simp only [List.all_cons, Bool.and_eq_true] at hs
        exact hs.2
      have htry0 : tryBold (c :: (s' ++ '*' :: '*' :: (t ++ '*' :: '*' :: u))) = none :=
        tryBold_not_star hc _
      have hlen' : (s' ++ '*' :: '*' :: (t ++ '*' :: '*' :: u)).length ≤ f := by
        simp only [List.cons_append, List.length_cons] at hlen
        omega
      simp only [List.cons_append]
      simp only [step4Go, htry0]
      rw [ih s' t u hlen' hs' ht ht2]

theorem tryHeader_not_hash {c : Char} (hc : (c == '#') = false) :
    ∀ l : List Char, tryHeader (c :: l) = none := by
  intro l
  cases l with
  | nil => rfl
  | cons d t =>
    cases t with
    | nil => rfl
    | cons d2 t2 => simp [tryHeader, hc]

theorem tryHeader_some_length :
    ∀ (l r : List Char), tryHeader l = some r → r.length < l.length := by
  intro l r h
  cases l with
  | nil => exact absurd h (by simp [tryHeader])
  | cons c1 t1 =>
    cases t1 with
    | nil => exact absurd h (by simp [tryHeader])
    | cons c2 t2 =>
      cases t2 with
      | nil => exact absurd h (by simp [tryHeader])
      | cons d ds =>
        simp only [tryHeader] at h
        by_cases hcond : (c1 == '#' && c2 == '#' && isWS d) = true
        · rw [if_pos hcond] at h
          simp only [Option.some.injEq] at h
          subst h
          have h2 : (ds.dropWhile isWS).length ≤ ds.length := dropWhile_length_le _ ds
          simp only [List.length_cons]
          omega
        · rw [if_neg hcond] at h
          exact absurd h (by simp)

theorem step1Go_congr :
    ∀ (n m : Nat) (l : List Char), l.length ≤ n → l.length ≤ m →
      step1Go n l = step1Go m l := by
  intro n
  induction n with
  | zero =>
    intro m l hn _
    have : l = [] := List.length_eq_zero.mp (Nat.le_zero.mp hn)
    subst this
    cases m <;> rfl
  | succ n' ih =>
    intro m l hn hm
    cases l with
    | nil => cases m <;> rfl
    | cons c cs =>
      cases m with
      | zero => simp at hm
      | succ m' =>
        cases htry : tryHeader (c :: cs) with
        | none =>
          have hlen : cs.length ≤ n' := by
            simp only [List.length_cons] at hn
            omega
          have hlen2 : cs.length ≤ m' := by
            simp only [List.length_cons] at hm
            omega
          simp only [step1Go, htry]
          rw [ih m' cs hlen hlen2]
        | some rest =>
          have hr := tryHeader_some_length (c :: cs) rest htry
          have hlen : rest.length ≤ n' := by
            simp only [List.length_cons] at hn hr
            omega
          have hlen2 : rest.length ≤ m' := by
            simp only [List.length_cons] at hm hr
            omega
          simp only [step1Go, htry]
          rw [ih m' rest hlen hlen2]

theorem step1Go_eq (fuel : Nat) (l : List Char) (h : l.length ≤ fuel) :
    step1Go fuel l = step1 l :=
  step1Go_congr fuel l.length l h le_rfl

theorem dropWhile_ws_append :
    ∀ (w u : List Char), w.all isWS = true → List.dropWhile isWS u = u →
      List.dropWhile isWS (w ++ u) = u := by
  intro w
  induction w with
  | nil => intro u _ hu; simpa using hu
  | cons c w' ih =>
    intro u hall hu
    simp only [List.all_cons, Bool.and_eq_true] at hall
    simp only [List.cons_append, List.dropWhile_cons, hall.1, if_true]
    exact ih u hall.2 hu

theorem step1Go_header :
    ∀ (fuel : Nat) (s w u : List Char),
      (s ++ '#' :: '#' :: (w ++ u)).length ≤ fuel →
      s.all (fun c => c != '#') = true → w ≠ [] → w.all isWS = true →
      List.dropWhile isWS u = u →
      step1Go fuel (s ++ '#' :: '#' :: (w ++ u)) = s ++ step1 u := by
  intro fuel
  induction fuel with
  | zero =>
    intro s w u hlen _ _ _ _
    simp [List.length_append, List.length_cons] at hlen
  | succ f ih =>
    intro s w u hlen hs hw hw2 hu
    cases s with
    | nil =>
      cases w with
      | nil => exact absurd rfl hw
      | cons d w' =>
        simp only [List.all_cons, Bool.and_eq_true] at hw2
        have htry : tryHeader ('#' :: '#' :: ((d :: w') ++ u))
            = some (List.dropWhile isWS (w' ++ u)) := by
          simp only [List.cons_append, tryHeader, hw2.1]
          simp
        have hdw : List.dropWhile isWS (w' ++ u) = u :=
          dropWhile_ws_append w' u hw2.2 hu
        have hule : u.length ≤ f := by
          simp only [List.nil_append, List.length_cons, List.length_append] at hlen
          omega
        simp only [List.nil_append]
        simp only [step1Go, htry, hdw]
        exact step1Go_eq f u hule
    | cons c s' =>
      have hc : (c == '#') = false := by
        simp only [List.all_cons, Bool.and_eq_true] at hs
        simpa using hs.1
      have hs' : s'.all (fun c => c != '#') = true := by
        simp only [List.all_cons, Bool.and_eq_true] at hs
        exact hs.2
      have htry0 : tryHeader (c :: (s' ++ '#' :: '#' :: (w ++ u))) = none :=
        tryHeader_not_hash hc _
      have hlen' : (s' ++ '#' :: '#' :: (w ++ u)).length ≤ f := by
        simp only [List.cons_append, List.length_cons] at hlen
        omega
      simp only [List.cons_append]
      simp only [step1Go, htry0]
      rw [ih s' w u hlen' hs' hw hw2 hu]

/-- Claim C6, amended: the normaliser removes markers only in the shapes its
patterns match.  Bold-stripping replaces each leftmost pair `**t**` (with
`t` non-empty and star-free, preceded by star-free text) by the enclosed
text `t`; header removal deletes `##` only when it is followed by
whitespace (the marker, the whitespace run, with hash-free text before it).
A `##` not followed by whitespace, or bold markers not forming such a pair
(nested or unmatched stars), can remain in the output — see the
counterexample. -/
theorem claim_C6_amended :
    (∀ (s t u : List Char), s.all (fun c => c != '*') = true → t ≠ [] →
      t.all (fun c => c != '*') = true →
      step4 (s ++ '*' :: '*' :: (t ++ '*' :: '*' :: u)) = s ++ (t ++ step4 u)) ∧
    (∀ (s w u : List Char), s.all (fun c => c != '#') = true → w ≠ [] →
      w.all isWS = true → List.dropWhile isWS u = u →
      step1 (s ++ '#' :: '#' :: (w ++ u)) = s ++ step1 u) := by
  constructor
  · intro s t u hs ht ht2
    exact step4Go_bold _ s t u le_rfl hs ht ht2
  · intro s w u hs hw hw2 hu
    exact step1Go_header _ s w u le_rfl hs hw hw2 hu

/-- Witness for the amended claim C6 at concrete inputs. -/
theorem claim_C6_amended_witness :
    step4 (("ab").data ++ '*' :: '*' :: (("c").data ++ '*' :: '*' :: ("d").data))
      = ("ab").data ++ (("c").data ++ step4 ("d").data) ∧
    step1 (("ab").data ++ '#' :: '#' :: ([' '] ++ ("z").data))
      = ("ab").data ++ step1 ("z").data :=
  ⟨claim_C6_amended.1 ("ab").data ("c").data ("d").data (by decide) (by decide) (by decide),
   claim_C6_amended.2 ("ab").data [' '] ("z").data (by decide) (by decide) (by decide)
     (by decide)⟩
